import Mathlib

/-!
# Verification of the immich-uploader upload pipeline

Shallow embedding of `internal/uploader/uploader.go` (the authoritative
implementation named by the specification).  Filesystem and network effects
are modelled by explicit oracle functions (`os.Stat`, `sha1File`,
`uploadAsset`, `os.Rename`, ...): each oracle returns the outcome the real
call would produce, and the control flow around the oracles is translated
line by line from the Go source.  Machine integers are modelled as `Nat`
(sizes, counters) and `Int` (the signed `int` batch size); Go `error`
values are an explicit `GoErr` type; Go strings are Lean `String`s, and
where Go inspects bytes of a string we work on the underlying `List Char`.
Wall-clock time is irrelevant to every claim and is dropped, except that
the relocation retry loop records the sleep durations it would perform.
-/

namespace ImmichUploader

/-- A Go `error` value: either a wrapped `syscall.Errno` (an error that
`errors.As(err, &errno)` resolves) or a plain error carrying a message
(what `err.Error()` returns). -/
inductive GoErr where
  | errno (code : Nat)
  | message (text : String)
deriving DecidableEq

/-- The response of `POST /assets` (`assetUploadResponse`, uploader.go:42-45). -/
structure AssetResp where
  id : String
  status : String
deriving DecidableEq

/-! ## `chunk` (uploader.go:238-251)

`chunk[T any](in []T, n int) [][]T` — if `n <= 0` the whole input is one
batch; otherwise slices of length `n` are cut from the front until the
input is exhausted.  The Go loop `for i := 0; i < len(in); i += n` with
slice `in[i:min(i+n, len(in))]` is the recursion below: the slice taken at
each step is `take n` of the remaining input and the loop continues on
`drop n`; for `n ≥ 1` we write the head element explicitly so the
recursion is visibly decreasing. -/

/-- The `n > 0` path of `chunk`: cut slices of length `n` (`n ≥ 1`) from
the front.  An empty input produces no batches (the Go loop body never
runs). -/
def chunkPos (n : Nat) : List α → List (List α)
  | [] => []
  | x :: xs => (x :: xs.take (n - 1)) :: chunkPos n (xs.drop (n - 1))
termination_by l => l.length
decreasing_by
  simp only [List.length_drop, List.length_cons]
  omega

/-- `chunk` (uploader.go:238-251) with the signed Go batch size. -/
def chunk (l : List α) (n : Int) : List (List α) :=
  if n ≤ 0 then [l] else chunkPos n.toNat l

theorem chunkPos_flatten (n : Nat) : ∀ l : List α, (chunkPos n l).flatten = l
  | [] => by simp [chunkPos]
  | x :: xs => by
    rw [chunkPos, List.flatten_cons]
    have ih := chunkPos_flatten n (xs.drop (n - 1))
    rw [ih]
    simp [List.take_append_drop]
termination_by l => l.length
decreasing_by
  simp only [List.length_drop, List.length_cons]
  omega

theorem chunkPos_mem_length_le (n : Nat) (hn : 1 ≤ n) :
    ∀ l : List α, ∀ c ∈ chunkPos n l, c.length ≤ n
  | [] => by simp [chunkPos]
  | x :: xs => by
    intro c hc
    rw [chunkPos, List.mem_cons] at hc
    rcases hc with rfl | hc
    · simp only [List.length_cons, List.length_take]
      omega
    · exact chunkPos_mem_length_le n hn (xs.drop (n - 1)) c hc
termination_by l => l.length
decreasing_by
  simp only [List.length_drop, List.length_cons]
  omega

theorem chunkPos_mem_ne_nil (n : Nat) :
    ∀ l : List α, ∀ c ∈ chunkPos n l, c ≠ []
  | [] => by simp [chunkPos]
  | x :: xs => by
    intro c hc
    rw [chunkPos, List.mem_cons] at hc
    rcases hc with rfl | hc
    · simp
    · exact chunkPos_mem_ne_nil n (xs.drop (n - 1)) c hc
termination_by l => l.length
decreasing_by
  simp only [List.length_drop, List.length_cons]
  omega

theorem chunkPos_length (n : Nat) (hn : 1 ≤ n) :
    ∀ l : List α, (chunkPos n l).length = (l.length + n - 1) / n
  | [] => by
    rw [chunkPos]
    simp only [List.length_nil]
    rw [Nat.div_eq_of_lt (by omega)]
  | x :: xs => by
    rw [chunkPos, List.length_cons,
        chunkPos_length n hn (xs.drop (n - 1)), List.length_drop]
    rw [List.length_cons,
        show xs.length + 1 + n - 1 = xs.length + n from by omega,
        Nat.add_div_right _ (by omega)]
    by_cases hle : n - 1 ≤ xs.length
    · rw [show xs.length - (n - 1) + n - 1 = xs.length from by omega]
    · rw [show xs.length - (n - 1) + n - 1 = n - 1 from by omega,
          Nat.div_eq_of_lt (by omega), Nat.div_eq_of_lt (by omega)]
termination_by l => l.length
decreasing_by
  simp only [List.length_drop, List.length_cons]
  omega

theorem chunk_flatten (l : List α) (n : Int) : (chunk l n).flatten = l := by
  unfold chunk
  split
  · simp
  · exact chunkPos_flatten _ l

/-! ## Album linking (uploader.go:116-122 and 765-769)

`addAssetsToAlbum` issues one `PUT /albums/{id}/assets` request unless the
id list is empty, in which case it returns `nil` without any request.  The
link loop in `Run` calls it once per batch produced by `chunk`.  A request
is modelled by the pair (album id, asset ids carried). -/

/-- The requests issued by one call of `addAssetsToAlbum`
(uploader.go:116-122): none for an empty id list, otherwise exactly one. -/
def addAssetsToAlbum (albumID : String) (assetIDs : List String) :
    List (String × List String) :=
  if assetIDs = [] then [] else [(albumID, assetIDs)]

/-- The link loop of `Run` (uploader.go:765-769): one `addAssetsToAlbum`
call per batch of `chunk uploadedIDs batchSize`. -/
def linkRequests (albumID : String) (uploadedIDs : List String)
    (batchSize : Int) : List (String × List String) :=
  (chunk uploadedIDs batchSize).flatMap (addAssetsToAlbum albumID)

/-! ## The per-album upload pipeline (uploader.go:626-754)

Oracles stand for the effectful calls a worker makes for one file: the
producer's `os.Stat`, the worker's re-`os.Stat`, `sha1File`, `uploadAsset`
(which receives the checksum header value) and `moveFileToIgnore`'s
outcome.  Every control-flow decision around them is from the source. -/

structure FileEnv where
  /-- `os.Stat` as called by the producer goroutine (uploader.go:699):
  the file size on success. -/
  statProducer : String → Except GoErr Nat
  /-- `os.Stat` as re-done by the worker (uploader.go:660). -/
  statWorker : String → Except GoErr Nat
  /-- `sha1File` (uploader.go:214-225): hex digest on success. -/
  sha1File : String → Except GoErr String
  /-- `uploadAsset` (uploader.go:680), given path and checksum header
  value (empty string means no `x-immich-checksum` header). -/
  uploadAsset : String → String → Except GoErr AssetResp
  /-- Outcome of `moveFileToIgnore` for this path (uploader.go:683):
  `none` means the file was moved. -/
  moveFile : String → Option GoErr

/-- `uploadResult` (uploader.go:634-641); the duration field is dropped
(no claim concerns timing). -/
structure UploadResult where
  idx : Nat
  path : String
  size : Nat
  asset : AssetResp
  err : Option GoErr
deriving DecidableEq

/-- The worker loop body for one job (uploader.go:659-693).  Returns the
result sent on the `results` channel, paired with whether a relocation
failure was logged and counted (`globalMovedFail`, uploader.go:683-690);
a relocation failure leaves the result itself untouched. -/
def workerStep (env : FileEnv) (checksum : Bool) (idx : Nat) (path : String)
    (size : Nat) : UploadResult × Bool :=
  match env.statWorker path with
  | .error e => ({ idx := idx, path := path, size := size, asset := ⟨"", ""⟩, err := some e }, false)
  | .ok _ =>
    let sum : String :=
      if checksum then
        match env.sha1File path with
        | .ok s => s
        | .error _ => ""
      else ""
    match env.uploadAsset path sum with
    | .error e => ({ idx := idx, path := path, size := size, asset := ⟨"", ""⟩, err := some e }, false)
    | .ok asset =>
      ({ idx := idx, path := path, size := size, asset := asset, err := none },
       (env.moveFile path).isSome)

/-- One file's journey through producer and worker: the producer
(uploader.go:697-709) stats the file, emitting an error result itself on
failure, and otherwise hands the job to a worker. -/
def processFile (env : FileEnv) (checksum : Bool) (idx : Nat) (path : String) :
    UploadResult × Bool :=
  match env.statProducer path with
  | .error e => ({ idx := idx, path := path, size := 0, asset := ⟨"", ""⟩, err := some e }, false)
  | .ok size => workerStep env checksum idx path size

/-- The fan-in of the result channel, linearised in file order: results
may really arrive in any interleaving, but each file contributes exactly
one result independently of all others, so any linearisation carries the
same multiset; the channel is closed after the `wg.Wait()` join
(uploader.go:697-709), which is the end of this list. -/
def pipelineResults (env : FileEnv) (checksum : Bool) (files : List String) :
    List UploadResult :=
  files.enum.map (fun p => (processFile env checksum p.1 p.2).1)

/-- The consumer loop's accumulation of `uploadedIDs`
(uploader.go:626, 713-725): successful results contribute their asset id,
failed ones are skipped. -/
def collectUploadedIDs (results : List UploadResult) : List String :=
  results.foldl
    (fun acc r => match r.err with
      | some _ => acc
      | none => acc ++ [r.asset.id])
    []

/-- The consumer loop's `uploadErrors` counter (uploader.go:627, 715-716). -/
def countUploadErrors (results : List UploadResult) : Nat :=
  results.foldl
    (fun n r => match r.err with
      | some _ => n + 1
      | none => n)
    0

/-! ## Relocation retry (`moveFileToIgnore`, uploader.go:292-315) -/

/-- `strings.Contains(hay, needle)`, on character lists. -/
def strContains (hay needle : List Char) : Bool :=
  if needle.isPrefixOf hay then true
  else
    match hay with
    | [] => false
    | _ :: t => strContains t needle

/-- The retry classification inside `moveFileToIgnore`
(uploader.go:302-310): a wrapped `syscall.Errno` is retried only for
codes 32 and 33 (ERROR_SHARING_VIOLATION / ERROR_LOCK_VIOLATION); any
other error is retried only when its lower-cased message contains
"being used by another process". -/
def isRetryableRenameErr : GoErr → Bool
  | .errno code => code == 32 || code == 33
  | .message text =>
      strContains (text.data.map Char.toLower) "being used by another process".data

/-- The retry loop of `moveFileToIgnore` (uploader.go:294-313).
`rename k` is the outcome of the k-th `os.Rename` attempt (`none` =
success).  Returns the error the function returns (`none` = success)
together with the `time.Sleep` durations performed, in milliseconds: the
sleep after attempt `k` (0-based) is `150*(k+1)` ms and happens only when
the attempt failed retryably (a non-retryable failure breaks before the
sleep; success returns immediately). -/
def renameRetryLoop (rename : Nat → Option GoErr) :
    Nat → Nat → Option GoErr → Option GoErr × List Nat
  | _, 0, lastErr => (lastErr, [])
  | attempt, remaining + 1, _ =>
    match rename attempt with
    | none => (none, [])
    | some e =>
      if isRetryableRenameErr e then
        let rest := renameRetryLoop rename (attempt + 1) remaining (some e)
        (rest.1, 150 * (attempt + 1) :: rest.2)
      else (some e, [])

/-- The whole retry phase of `moveFileToIgnore`: 10 attempts starting at
attempt 0 with `lastErr` initially nil (uploader.go:294-295). -/
def moveFileRetry (rename : Nat → Option GoErr) : Option GoErr × List Nat :=
  renameRetryLoop rename 0 10 none

/-! ## Relocation destination and collision handling
(`moveFileToIgnore`, uploader.go:275-290)

Paths are modelled as lists of components (`filepath.Join` appends
components, `filepath.Dir` drops the last one, `filepath.Base` is the
last one); `filepath.Ext` and `strings.TrimSuffix` work on the characters
of the final component, exactly as in Go where `Ext` never crosses a
separator. -/

/-- `filepath.Ext` on one path component: the suffix starting at the last
dot, empty if the name has no dot. -/
def fileExtChars : List Char → Option (List Char)
  | [] => none
  | c :: cs =>
    match fileExtChars cs with
    | some e => some e
    | none => if c = '.' then some (c :: cs) else none

/-- `filepath.Ext` (empty extension as the empty list). -/
def fileExt (name : String) : List Char :=
  (fileExtChars name.data).getD []

/-- `strings.TrimSuffix` on character lists. -/
def trimSuffix (s suffixChars : List Char) : List Char :=
  if suffixChars.isSuffixOf s then s.take (s.length - suffixChars.length) else s

/-- The collision rename of `moveFileToIgnore` (uploader.go:286-290):
`fmt.Sprintf("%s-%d%s", base, time.Now().UnixNano(), ext)` where
`ext := filepath.Ext(dst)` and `base := strings.TrimSuffix(filepath.Base(dst), ext)`. -/
def collisionName (name : String) (nano : Nat) : String :=
  let ext := fileExt name
  let base := trimSuffix name.data ext
  String.mk (base ++ ('-' :: (Nat.repr nano).data) ++ ext)

/-- The destination computed by `moveFileToIgnore` (uploader.go:281):
`filepath.Join(root, ignoreName, albumName, rel)` where `rel` is the
source path relative to the album root (possibly several components). -/
def moveDstPath (root ignoreName albumName : String) (rel : List String) :
    List String :=
  [root, ignoreName, albumName] ++ rel

/-- The collision check of `moveFileToIgnore` (uploader.go:286-290):
`occupied` is the `os.Stat(dst) == nil` oracle (does a file already exist
at that path); on collision the last component is replaced by
`collisionName` with the current `UnixNano`. -/
def collisionAdjust (occupied : List String → Bool) (dst : List String)
    (nano : Nat) : List String :=
  if occupied dst then dst.dropLast ++ [collisionName (dst.getLastD "") nano]
  else dst

/-! ## Directory scanner (`walkFn`, uploader.go:565-587)

A directory tree is the inductive `FSEntry`; `filepath.WalkDir` visits the
album root first (`path == folderPath`, always descended) and then each
entry depth-first.  `walkFn` handles a directory before ever looking at
its name: a non-root directory is pruned (`filepath.SkipDir`) exactly when
`!opt.Deep`, and otherwise descended; only for non-directories are the
dot-prefix and media-extension filters applied.  Collected paths are
component lists relative to the album root. -/

inductive FSEntry where
  | file (name : String)
  | dir (name : String) (children : List FSEntry)

/-- `strings.HasPrefix(name, ".")`. -/
def startsWithDot (name : String) : Bool :=
  match name.data with
  | [] => false
  | c :: _ => c == '.'

/-- The extension allow-list of `isMediaFile` (uploader.go:227-236). -/
def mediaExtensions : List String :=
  [".jpg", ".jpeg", ".png", ".gif", ".webp", ".heic", ".heif", ".tif",
   ".tiff", ".bmp", ".mp4", ".mov", ".m4v", ".mkv", ".avi", ".webm"]

/-- `isMediaFile` (uploader.go:227-236): lower-cased `filepath.Ext` must
be in the allow-list. -/
def isMediaFile (name : String) : Bool :=
  let ext := (fileExt name).map Char.toLower
  mediaExtensions.any (fun e => ext == e.data)

mutual

/-- `walkFn` applied to one non-root entry at relative path
`pre ++ [name of the entry]` (uploader.go:566-585). -/
def walkEntry (deep : Bool) (pre : List String) : FSEntry → List (List String)
  | .file name =>
    if startsWithDot name then []
    else if !isMediaFile name then []
    else [pre ++ [name]]
  | .dir name children =>
    if !deep then []
    else walkEntryList deep (pre ++ [name]) children

/-- Depth-first traversal of sibling entries. -/
def walkEntryList (deep : Bool) (pre : List String) :
    List FSEntry → List (List String)
  | [] => []
  | e :: es => walkEntry deep pre e ++ walkEntryList deep pre es

end

/-- The file discovery for one album folder (uploader.go:587): the walk
starts at the album root, which is always descended into. -/
def scanAlbum (deep : Bool) (rootEntries : List FSEntry) : List (List String) :=
  walkEntryList deep [] rootEntries

/-! ## Smallest-first sort (uploader.go:596-614)

`sort.Slice` with the inline comparator.  Go's `<` on strings is
byte-lexicographic; it is embedded as `strLtChars` on the character
lists.  `sort.Slice` guarantees only that the result is a permutation of
the input ordered by the comparator; since the comparator is a strict
weak order whose ties are exact duplicates, the sorted permutation is
unique and any correct sort — here insertion sort — is a faithful model. -/

/-- Go string `<` (lexicographic). -/
def strLtChars : List Char → List Char → Bool
  | [], [] => false
  | [], _ :: _ => true
  | _ :: _, [] => false
  | a :: as, b :: bs =>
    if a < b then true
    else if b < a then false
    else strLtChars as bs

/-- The `sort.Slice` comparator (uploader.go:597-613); `stat` is the
`os.Stat` size oracle (`none` = stat error). -/
def smallestFirstLess (stat : String → Option Nat) (a b : String) : Bool :=
  match stat a, stat b with
  | none, none => strLtChars a.data b.data
  | none, some _ => false
  | some _, none => true
  | some x, some y =>
    if x = y then strLtChars a.data b.data else decide (x < y)

/-- The post-scan sort of `Run` (uploader.go:596-614): the file list
reordered so that `smallestFirstLess` never holds backwards between
neighbours. -/
def smallestFirstSort (stat : String → Option Nat) (files : List String) :
    List String :=
  List.insertionSort (fun a b => smallestFirstLess stat b a = false) files

/-! ## The run loop (`Run`, uploader.go:396-780)

The options actually consulted by the control flow the claims concern.
TUI rendering (uploader.go:435-534) only affects logging and the shared
counters and is dropped. -/

structure Options where
  apiKey : String
  root : String
  deep : Bool
  checksum : Bool
  batchSize : Int
  smallestFirst : Bool
  ignoreDir : String

structure RunEnv where
  /-- `getAllAlbums` (uploader.go:423): the prefetched name→id pairs. -/
  listAlbums : Except GoErr (List (String × String))
  /-- `os.ReadDir(opt.Root)` (uploader.go:428): entries as
  (name, isDir). -/
  readRootDir : Except GoErr (List (String × Bool))
  /-- `createAlbum` (uploader.go:549). -/
  createAlbum : String → Except GoErr String
  /-- `ensureIgnoreAlbumDir` for a folder name (uploader.go:560). -/
  ensureIgnoreAlbumDir : String → Option GoErr
  /-- `filepath.WalkDir` over a folder (uploader.go:587): the collected
  file list, or the walk error that aborts the album. -/
  walkFiles : String → Except GoErr (List String)
  /-- `os.Stat` as used by the sort comparator (uploader.go:598-599). -/
  statSize : String → Option Nat
  /-- The per-file oracles of the upload pipeline. -/
  fileEnv : FileEnv

/-- What `Run` did for one album folder it reached. -/
inductive AlbumOutcome where
  /-- `createAlbum` failed: logged and `continue`d (uploader.go:550-553),
  nothing else done for this folder. -/
  | createFailed (e : GoErr)
  /-- `ensureIgnoreAlbumDir` failed: logged and `continue`d
  (uploader.go:560-563). -/
  | ignoreDirFailed (e : GoErr)
  /-- The walk failed: logged and `continue`d (uploader.go:587-590). -/
  | walkFailed (e : GoErr)
  /-- No media files found: skipped (uploader.go:591-594). -/
  | noMedia
  /-- The pipeline ran; carries the album id, the upload results and the
  link requests issued (uploader.go:596-770). -/
  | processed (albumID : String) (results : List UploadResult)
      (links : List (String × List String))
deriving DecidableEq

/-- The body of the per-folder loop for one directory entry whose name
passed the `IsDir` and `IgnoreDir` guards (uploader.go:540-770): resolve
or create the album, prepare the parking directory, walk, sort, run the
pipeline and link.  Returns the outcome and the updated album index. -/
def processFolder (opt : Options) (env : RunEnv)
    (albums : List (String × String)) (folderName : String) :
    AlbumOutcome × List (String × String) :=
  match albums.lookup folderName with
  | some albumID => processResolved opt env albums folderName albumID
  | none =>
    match env.createAlbum folderName with
    | .error e => (.createFailed e, albums)
    | .ok id => processResolved opt env (albums ++ [(folderName, id)]) folderName id
where
  processResolved (opt : Options) (env : RunEnv)
      (albums : List (String × String)) (folderName albumID : String) :
      AlbumOutcome × List (String × String) :=
    match env.ensureIgnoreAlbumDir folderName with
    | some e => (.ignoreDirFailed e, albums)
    | none =>
      match env.walkFiles folderName with
      | .error e => (.walkFailed e, albums)
      | .ok files =>
        if files = [] then (.noMedia, albums)
        else
          let sorted := if opt.smallestFirst then smallestFirstSort env.statSize files else files
          let results := pipelineResults env.fileEnv opt.checksum sorted
          let uploadedIDs := collectUploadedIDs results
          if uploadedIDs = [] then (.processed albumID results [], albums)
          else (.processed albumID results (linkRequests albumID uploadedIDs opt.batchSize), albums)

/-- The folder loop of `Run` (uploader.go:536-777): non-directories and
the parking directory are skipped without an outcome; every other folder
gets exactly one outcome and may extend the album index. -/
def runFolders (opt : Options) (env : RunEnv) :
    List (String × String) → List (String × Bool) → List (String × AlbumOutcome)
  | _, [] => []
  | albums, (name, isDir) :: rest =>
    if !isDir then runFolders opt env albums rest
    else if name = opt.ignoreDir then runFolders opt env albums rest
    else
      let (outcome, albums2) := processFolder opt env albums name
      (name, outcome) :: runFolders opt env albums2 rest

/-- `Run` (uploader.go:396-780): the setup guards return an error
(uploader.go:413-431); once the folder loop is reached it always falls
through to `return nil` (uploader.go:779). -/
def runModel (opt : Options) (env : RunEnv) :
    Except GoErr (List (String × AlbumOutcome)) :=
  if opt.apiKey = "" then .error (.message "missing API key")
  else if opt.root = "" then .error (.message "missing root")
  else
    match env.listAlbums with
    | .error e => .error e
    | .ok albums =>
      match env.readRootDir with
      | .error e => .error e
      | .ok entries => .ok (runFolders opt env albums entries)

/-- The process exit code of `cmd/cli` (cmd/cli/main.go:46-52): 1 when
`Run` returns an error, 0 otherwise. -/
def exitCode (opt : Options) (env : RunEnv) : Nat :=
  match runModel opt env with
  | .error _ => 1
  | .ok _ => 0

/-! ## Helper lemmas -/

theorem processFile_idx (env : FileEnv) (cs : Bool) (i : Nat) (p : String) :
    (processFile env cs i p).1.idx = i := by
  unfold processFile workerStep
  repeat' split
  all_goals (dsimp only; repeat' split)
  all_goals rfl

theorem processFile_path (env : FileEnv) (cs : Bool) (i : Nat) (p : String) :
    (processFile env cs i p).1.path = p := by
  unfold processFile workerStep
  repeat' split
  all_goals (dsimp only; repeat' split)
  all_goals rfl

theorem collectUploadedIDs_go (rs : List UploadResult) : ∀ acc : List String,
    rs.foldl (fun acc r => match r.err with | some _ => acc | none => acc ++ [r.asset.id]) acc
      = acc ++ (rs.filter (fun r => r.err.isNone)).map (fun r => r.asset.id) := by
  induction rs with
  | nil => simp
  | cons r rs ih =>
    intro acc
    cases h : r.err <;> simp [h, ih, List.filter_cons]

theorem collectUploadedIDs_eq (rs : List UploadResult) :
    collectUploadedIDs rs = (rs.filter (fun r => r.err.isNone)).map (fun r => r.asset.id) := by
  unfold collectUploadedIDs
  rw [collectUploadedIDs_go]
  simp

theorem linkRequests_flatten_ids (albumID : String) (chunks : List (List String)) :
    (chunks.flatMap (addAssetsToAlbum albumID)).flatMap (fun q => q.2) = chunks.flatten := by
  induction chunks with
  | nil => rfl
  | cons c cs ih =>
    by_cases hc : c = [] <;> simp [addAssetsToAlbum, hc, ih]

theorem linkRequests_map_of_ne_nil (albumID : String) (chunks : List (List String))
    (h : ∀ c ∈ chunks, c ≠ []) :
    chunks.flatMap (addAssetsToAlbum albumID) = chunks.map (fun c => (albumID, c)) := by
  induction chunks with
  | nil => rfl
  | cons c cs ih =>
    have hc : c ≠ [] := h c (List.mem_cons_self c cs)
    simp only [List.flatMap_cons, List.map_cons, addAssetsToAlbum, if_neg hc]
    rw [ih (fun d hd => h d (List.mem_cons_of_mem c hd))]
    rfl

/-! ## Claims about the pipeline and batching -/

/-- Claim C1: every file of the discovered (post-sort) list gives rise to
exactly one `uploadResult` on the result stream — the results carry the
files and their indices exactly once, in particular no file is attempted
twice and none is omitted — and the stream is a finite list closed after
the last file's result, so the consumer loop terminates. -/
theorem pipeline_exactly_once_per_file (env : FileEnv) (checksum : Bool)
    (files : List String) :
    (pipelineResults env checksum files).map (fun r => r.path) = files
    ∧ (pipelineResults env checksum files).map (fun r => r.idx) = List.range files.length
    ∧ (pipelineResults env checksum files).length = files.length := by
  refine ⟨?_, ?_, ?_⟩
  · unfold pipelineResults
    rw [List.map_map]
    have : ∀ q ∈ files.enum,
        ((fun r => r.path) ∘ fun p => (processFile env checksum p.1 p.2).1) q = Prod.snd q :=
      fun q _ => processFile_path env checksum q.1 q.2
    rw [List.map_congr_left this, List.enum_map_snd]
  · unfold pipelineResults
    rw [List.map_map]
    have : ∀ q ∈ files.enum,
        ((fun r => r.idx) ∘ fun p => (processFile env checksum p.1 p.2).1) q = Prod.fst q :=
      fun q _ => processFile_idx env checksum q.1 q.2
    rw [List.map_congr_left this, List.enum_map_fst]
  · unfold pipelineResults
    rw [List.length_map, List.enum_length]

/-- Claim C2: the asset ids submitted to the album-link step are exactly
the ids of the successful upload results — an id is included iff its
result carries no error — and the outcome of `moveFileToIgnore` (the
`moveFile` oracle) has no influence on the results, hence none on the ids
to be linked: a relocation failure after a successful upload does not
remove that asset id. -/
theorem linked_ids_match_successes
    (sp sw : String → Except GoErr Nat) (sh : String → Except GoErr String)
    (up : String → String → Except GoErr AssetResp) (mv mv2 : String → Option GoErr)
    (checksum : Bool) (files : List String) (albumID : String) (batchSize : Int) :
    collectUploadedIDs (pipelineResults ⟨sp, sw, sh, up, mv⟩ checksum files)
      = ((pipelineResults ⟨sp, sw, sh, up, mv⟩ checksum files).filter
          (fun r => r.err.isNone)).map (fun r => r.asset.id)
    ∧ ((linkRequests albumID
          (collectUploadedIDs (pipelineResults ⟨sp, sw, sh, up, mv⟩ checksum files))
          batchSize).flatMap (fun q => q.2)
        = collectUploadedIDs (pipelineResults ⟨sp, sw, sh, up, mv⟩ checksum files))
    ∧ pipelineResults ⟨sp, sw, sh, up, mv2⟩ checksum files
        = pipelineResults ⟨sp, sw, sh, up, mv⟩ checksum files := by
  refine ⟨collectUploadedIDs_eq _, ?_, ?_⟩
  · rw [linkRequests, linkRequests_flatten_ids, chunk_flatten]
  · unfold pipelineResults
    refine List.map_congr_left (fun q _ => ?_)
    unfold processFile workerStep
    dsimp only
    cases h1 : sp q.2 <;> simp only [h1]
    cases h2 : sw q.2 <;> simp only [h2]
    cases h3 : up q.2 (if checksum then
        match sh q.2 with | .ok s => s | .error _ => "" else "") <;> simp only [h3]

/-- Claim C3: for `0 < B`, `chunk` cuts a list of `N` ids into exactly
`⌈N/B⌉ = (N + B - 1)/B` batches of length at most `B` whose concatenation
is the input, and the link loop issues exactly one request per batch. -/
theorem chunk_batching (ids : List String) (albumID : String) (n : Int)
    (hn : 0 < n) :
    (chunk ids n).length = (ids.length + n.toNat - 1) / n.toNat
    ∧ (∀ c ∈ chunk ids n, c.length ≤ n.toNat)
    ∧ (chunk ids n).flatten = ids
    ∧ linkRequests albumID ids n = (chunk ids n).map (fun c => (albumID, c)) := by
  have hle : ¬ n ≤ 0 := by omega
  have h1 : 1 ≤ n.toNat := by omega
  have hch : chunk ids n = chunkPos n.toNat ids := by rw [chunk, if_neg hle]
  refine ⟨?_, ?_, chunk_flatten ids n, ?_⟩
  · rw [hch, chunkPos_length _ h1]
  · rw [hch]
    exact fun c hc => chunkPos_mem_length_le _ h1 ids c hc
  · rw [linkRequests, hch,
        linkRequests_map_of_ne_nil _ _ (chunkPos_mem_ne_nil _ ids)]

theorem chunk_batching_witness :
    (0 : Int) < 2
    ∧ ((chunk ["a", "b", "c"] (2 : Int)).length
          = ((["a", "b", "c"] : List String).length + (2 : Int).toNat - 1) / (2 : Int).toNat
       ∧ (∀ c ∈ chunk ["a", "b", "c"] (2 : Int), c.length ≤ (2 : Int).toNat)
       ∧ (chunk ["a", "b", "c"] (2 : Int)).flatten = ["a", "b", "c"]
       ∧ linkRequests "album-1" ["a", "b", "c"] 2
           = (chunk ["a", "b", "c"] (2 : Int)).map (fun c => ("album-1", c))) :=
  ⟨by decide, chunk_batching ["a", "b", "c"] "album-1" 2 (by decide)⟩

/-- Claim C10: `chunk` is total for every batch size, and for `n ≤ 0` it
returns the whole input as a single batch, so a nonempty id list yields a
single link request carrying all ids. -/
theorem chunk_nonpositive_single_batch (l : List String) (albumID : String)
    (n : Int) (hn : n ≤ 0) :
    chunk l n = [l]
    ∧ (l ≠ [] → linkRequests albumID l n = [(albumID, l)]) := by
  have hch : chunk l n = [l] := by rw [chunk, if_pos hn]
  refine ⟨hch, fun hl => ?_⟩
  rw [linkRequests, hch]
  simp [addAssetsToAlbum, hl]

theorem chunk_nonpositive_single_batch_witness :
    (0 : Int) ≤ 0
    ∧ (chunk ["x", "y"] (0 : Int) = [["x", "y"]]
       ∧ ((["x", "y"] : List String) ≠ [] →
           linkRequests "album-2" ["x", "y"] 0 = [("album-2", ["x", "y"])])) :=
  ⟨by decide, chunk_nonpositive_single_batch ["x", "y"] "album-2" 0 (by decide)⟩

/-- Claim C7 counterexample: with the checksum feature enabled, a
`sha1File` error is *not* recorded or counted — the upload proceeds with
an empty checksum, the file's result is a success carrying the uploaded
asset id, and the `uploadErrors` counter stays 0 — refuting that a
fingerprint error is "recorded and counted like the other per-file
errors". -/
theorem checksum_error_uncounted :
    FileEnv.sha1File
        ⟨fun _ => .ok 4, fun _ => .ok 4, fun _ => .error (.message "checksum failed"),
         fun _ _ => .ok ⟨"asset-1", "created"⟩, fun _ => none⟩ "a.jpg"
      = .error (.message "checksum failed")
    ∧ (pipelineResults
        ⟨fun _ => .ok 4, fun _ => .ok 4, fun _ => .error (.message "checksum failed"),
         fun _ _ => .ok ⟨"asset-1", "created"⟩, fun _ => none⟩ true ["a.jpg"]).map
          (fun r => r.err) = [none]
    ∧ countUploadErrors (pipelineResults
        ⟨fun _ => .ok 4, fun _ => .ok 4, fun _ => .error (.message "checksum failed"),
         fun _ _ => .ok ⟨"asset-1", "created"⟩, fun _ => none⟩ true ["a.jpg"]) = 0
    ∧ collectUploadedIDs (pipelineResults
        ⟨fun _ => .ok 4, fun _ => .ok 4, fun _ => .error (.message "checksum failed"),
         fun _ _ => .ok ⟨"asset-1", "created"⟩, fun _ => none⟩ true ["a.jpg"]) = ["asset-1"] :=
  ⟨rfl, rfl, rfl, rfl⟩

/-- Claim C7 (amended): a `sha1File` error with the checksum feature
enabled is silently ignored — the upload is performed with an empty
checksum header value, exactly as if the checksum feature were disabled,
and the job's result (and hence the error accounting) depends only on the
stat and upload outcomes. -/
theorem checksum_error_ignored (sp sw : String → Except GoErr Nat)
    (sh2 : String → Except GoErr String)
    (up : String → String → Except GoErr AssetResp) (mv : String → Option GoErr)
    (e : GoErr) (i : Nat) (p : String) :
    processFile ⟨sp, sw, fun _ => .error e, up, mv⟩ true i p
      = processFile ⟨sp, sw, sh2, up, mv⟩ false i p := by
  unfold processFile workerStep
  dsimp only
  cases h1 : sp p <;> simp only [h1]
  cases h2 : sw p <;> simp only [h2]
  simp

/-! ## Claim C4: the relocation retry policy -/

theorem renameRetryLoop_exhaust (rename : Nat → Option GoErr) (e : Nat → GoErr) :
    ∀ remaining attempt lastErr, 0 < remaining →
    (∀ k, k < remaining → rename (attempt + k) = some (e (attempt + k))) →
    (∀ k, k < remaining → isRetryableRenameErr (e (attempt + k)) = true) →
    renameRetryLoop rename attempt remaining lastErr =
      (some (e (attempt + remaining - 1)),
       (List.range' attempt remaining).map (fun k => 150 * (k + 1))) := by
  intro remaining
  induction remaining with
  | zero => omega
  | succ r ih =>
    intro attempt lastErr _ hren htr
    have h0 : rename attempt = some (e attempt) := hren 0 (by omega)
    have ht0 : isRetryableRenameErr (e attempt) = true := htr 0 (by omega)
    rw [renameRetryLoop, h0]
    simp only [ht0, if_pos]
    rw [List.range'_succ attempt r 1, List.map_cons]
    rcases Nat.eq_zero_or_pos r with rfl | hr
    · simp [renameRetryLoop]
    · rw [ih (attempt + 1) (some (e attempt)) hr
          (fun k hk => by
            have h := hren (k + 1) (by omega)
            rw [show attempt + (k + 1) = attempt + 1 + k from by omega] at h
            exact h)
          (fun k hk => by
            have h := htr (k + 1) (by omega)
            rw [show attempt + (k + 1) = attempt + 1 + k from by omega] at h
            exact h),
         show attempt + 1 + r - 1 = attempt + (r + 1) - 1 from by omega]

theorem renameRetryLoop_abort (rename : Nat → Option GoErr) (e : Nat → GoErr) :
    ∀ j remaining attempt lastErr, j < remaining →
    (∀ k, k < j → rename (attempt + k) = some (e (attempt + k))
        ∧ isRetryableRenameErr (e (attempt + k)) = true) →
    rename (attempt + j) = some (e (attempt + j)) →
    isRetryableRenameErr (e (attempt + j)) = false →
    renameRetryLoop rename attempt remaining lastErr =
      (some (e (attempt + j)),
       (List.range' attempt j).map (fun k => 150 * (k + 1))) := by
  intro j
  induction j with
  | zero =>
    intro remaining attempt lastErr hlt _ hren htr
    obtain ⟨r, rfl⟩ : ∃ r, remaining = r + 1 := ⟨remaining - 1, by omega⟩
    have hren0 : rename attempt = some (e attempt) := hren
    have htr0 : isRetryableRenameErr (e attempt) = false := htr
    rw [renameRetryLoop, hren0]
    simp [htr0]
  | succ j ih =>
    intro remaining attempt lastErr hlt hpre hren htr
    obtain ⟨r, rfl⟩ : ∃ r, remaining = r + 1 := ⟨remaining - 1, by omega⟩
    have h0 := hpre 0 (by omega)
    have h0r : rename attempt = some (e attempt) := h0.1
    have h0t : isRetryableRenameErr (e attempt) = true := h0.2
    rw [renameRetryLoop, h0r]
    simp only [h0t, if_pos]
    rw [List.range'_succ attempt j 1, List.map_cons]
    rw [ih r (attempt + 1) (some (e attempt)) (by omega)
        (fun k hk => by
          have h := hpre (k + 1) (by omega)
          rw [show attempt + (k + 1) = attempt + 1 + k from by omega] at h
          exact h)
        (by rw [show attempt + 1 + j = attempt + (j + 1) from by omega]; exact hren)
        (by rw [show attempt + 1 + j = attempt + (j + 1) from by omega]; exact htr),
       show attempt + 1 + j = attempt + (j + 1) from by omega]

/-- Claim C4: `moveFileToIgnore` makes up to 10 rename attempts; a
retryable "file in use / sharing violation" failure at 0-based attempt
`k` is followed by a `150*(k+1)` ms backoff (linearly increasing, 150 ms
times the 1-based attempt number); a non-retryable failure aborts
immediately — no further attempt, no backoff; when all 10 attempts fail
retryably the last attempt's error is returned. -/
theorem move_retry_policy (rename : Nat → Option GoErr) (e : Nat → GoErr)
    (hfail : ∀ k, k < 10 → rename k = some (e k)) :
    ((∀ k, k < 10 → isRetryableRenameErr (e k) = true) →
      moveFileRetry rename =
        (some (e 9), [150, 300, 450, 600, 750, 900, 1050, 1200, 1350, 1500]))
    ∧ (∀ j, j < 10 → isRetryableRenameErr (e j) = false →
        (∀ k, k < j → isRetryableRenameErr (e k) = true) →
        moveFileRetry rename =
          (some (e j), (List.range j).map (fun k => 150 * (k + 1)))) := by
  constructor
  · intro htr
    rw [moveFileRetry,
        renameRetryLoop_exhaust rename e 10 0 none (by omega)
          (fun k hk => by rw [Nat.zero_add]; exact hfail k hk)
          (fun k hk => by rw [Nat.zero_add]; exact htr k hk)]
    refine Prod.ext rfl ?_
    show (List.range' 0 10).map (fun k => 150 * (k + 1))
        = [150, 300, 450, 600, 750, 900, 1050, 1200, 1350, 1500]
    decide
  · intro j hj htr hpre
    rw [moveFileRetry,
        renameRetryLoop_abort rename e j 10 0 none hj
          (fun k hk => by rw [Nat.zero_add]; exact ⟨hfail k (by omega), hpre k hk⟩)
          (by rw [Nat.zero_add]; exact hfail j hj)
          (by rw [Nat.zero_add]; exact htr)]
    refine Prod.ext (by simp) ?_
    simp only
    rw [List.range_eq_range' j]

theorem move_retry_policy_witness :
    moveFileRetry (fun _ => some (GoErr.errno 32)) =
      (some (GoErr.errno 32), [150, 300, 450, 600, 750, 900, 1050, 1200, 1350, 1500])
    ∧ moveFileRetry (fun _ => some (GoErr.message "access denied")) =
      (some (GoErr.message "access denied"), []) := by
  constructor
  · exact (move_retry_policy (fun _ => some (GoErr.errno 32)) (fun _ => GoErr.errno 32)
      (fun _ _ => rfl)).1 (fun _ _ => by decide)
  · have h := (move_retry_policy (fun _ => some (GoErr.message "access denied"))
      (fun _ => GoErr.message "access denied") (fun _ _ => rfl)).2 0 (by omega)
      (by decide) (fun k hk => absurd hk (by omega))
    simpa using h

/-! ## Claim C5: relocation collision handling -/

theorem collisionName_length_lt (name : String) (nano : Nat) :
    name.length < (collisionName name nano).length := by
  unfold collisionName trimSuffix
  dsimp only
  split
  · show name.data.length <
      (List.take (name.data.length - (fileExt name).length) name.data
        ++ '-' :: (Nat.repr nano).data ++ fileExt name).length
    simp only [List.length_append, List.length_take, List.length_cons]
    omega
  · show name.data.length <
      (name.data ++ '-' :: (Nat.repr nano).data ++ fileExt name).length
    simp only [List.length_append, List.length_cons]
    omega

/-- Claim C5: when `moveFileToIgnore` finds the computed destination
already occupied, the actual rename target differs from that destination
(the timestamp suffix strictly lengthens the final component), so the
occupant — in particular a first file already moved there — is never the
rename target and is preserved; when the destination is free it is used
unchanged. -/
theorem relocation_collision (occupied : List String → Bool)
    (root ig alb : String) (rel : List String) (nano : Nat) :
    (occupied (moveDstPath root ig alb rel) = false →
      collisionAdjust occupied (moveDstPath root ig alb rel) nano
        = moveDstPath root ig alb rel)
    ∧ (occupied (moveDstPath root ig alb rel) = true →
      collisionAdjust occupied (moveDstPath root ig alb rel) nano
        ≠ moveDstPath root ig alb rel) := by
  constructor
  · intro h
    simp [collisionAdjust, h]
  · intro h heq
    simp only [collisionAdjust, h, if_pos] at heq
    set dst := moveDstPath root ig alb rel with hdst
    have hne : dst ≠ [] := by rw [hdst]; simp [moveDstPath]
    have hsplit := List.dropLast_append_getLast hne
    have heq2 : dst.dropLast ++ [collisionName (dst.getLastD "") nano]
        = dst.dropLast ++ [dst.getLast hne] := heq.trans hsplit.symm
    have hname : collisionName (dst.getLastD "") nano = dst.getLast hne := by
      have h1 := List.append_cancel_left heq2
      exact (List.cons.injEq _ _ _ _).mp h1 |>.1
    have hgl : dst.getLastD "" = dst.getLast hne := by
      rw [List.getLastD_eq_getLast?, List.getLast?_eq_getLast dst hne]
      rfl
    rw [hgl] at hname
    have hlt := collisionName_length_lt (dst.getLast hne) nano
    rw [hname] at hlt
    exact Nat.lt_irrefl _ hlt

theorem relocation_collision_witness :
    collisionAdjust (fun _ => false)
        (moveDstPath "root" "ignore" "Album" ["img.jpg"]) 7
      = moveDstPath "root" "ignore" "Album" ["img.jpg"]
    ∧ collisionAdjust (fun _ => true)
        (moveDstPath "root" "ignore" "Album" ["img.jpg"]) 7
      ≠ moveDstPath "root" "ignore" "Album" ["img.jpg"] :=
  ⟨(relocation_collision (fun _ => false) "root" "ignore" "Album" ["img.jpg"] 7).1 rfl,
   (relocation_collision (fun _ => true) "root" "ignore" "Album" ["img.jpg"] 7).2 rfl⟩

/-! ## Claim C6: scanner filters -/

/-- Claim C6 counterexample: in recursive (deep) mode a dot-prefixed
*directory* is not pruned — `walkFn` handles directories before the
dot-prefix check (uploader.go:570-578) — so `album/.hidden/photo.jpg` is
collected: a file beneath a dot-prefixed entry does reach the candidate
list, refuting "neither it nor any file beneath it is added ... in both
recursive and non-recursive modes". -/
theorem scanner_descends_dot_dir :
    startsWithDot ".hidden" = true
    ∧ scanAlbum true [FSEntry.dir ".hidden" [FSEntry.file "photo.jpg"]]
        = [[".hidden", "photo.jpg"]] := by
  constructor
  · rfl
  · rfl

mutual

theorem walkEntry_mem_filtered (deep : Bool) (pre : List String) (e : FSEntry) :
    ∀ p ∈ walkEntry deep pre e,
      (∃ n, p.getLast? = some n ∧ startsWithDot n = false ∧ isMediaFile n = true)
      ∧ (deep = false → ∃ n, p = pre ++ [n]) := by
  intro p hp
  cases e with
  | file name =>
    simp only [walkEntry] at hp
    by_cases hdot : startsWithDot name = true
    · simp [hdot] at hp
    · rw [if_neg hdot] at hp
      by_cases hmedia : isMediaFile name = true
      · rw [hmedia] at hp
        simp only [Bool.not_true, if_neg] at hp
        have hpe : p = pre ++ [name] := by simpa using hp
        subst hpe
        exact ⟨⟨name, List.getLast?_concat _, by simpa using hdot, hmedia⟩,
               fun _ => ⟨name, rfl⟩⟩
      · rw [Bool.not_eq_true] at hmedia
        simp [hmedia] at hp
  | dir name children =>
    simp only [walkEntry] at hp
    by_cases hdeep : deep = true
    · rw [hdeep] at hp
      simp only [Bool.not_true, if_neg] at hp
      have hh := walkEntryList_mem_filtered true (pre ++ [name]) children p (by simpa using hp)
      exact ⟨hh.1, fun hfalse => by rw [hdeep] at hfalse; cases hfalse⟩
    · rw [Bool.not_eq_true] at hdeep
      simp [hdeep] at hp

theorem walkEntryList_mem_filtered (deep : Bool) (pre : List String)
    (es : List FSEntry) :
    ∀ p ∈ walkEntryList deep pre es,
      (∃ n, p.getLast? = some n ∧ startsWithDot n = false ∧ isMediaFile n = true)
      ∧ (deep = false → ∃ n, p = pre ++ [n]) := by
  intro p hp
  cases es with
  | nil => simp [walkEntryList] at hp
  | cons e es =>
    simp only [walkEntryList, List.mem_append] at hp
    rcases hp with hp | hp
    · exact walkEntry_mem_filtered deep pre e p hp
    · exact walkEntryList_mem_filtered deep pre es p hp

end

/-- Claim C6 (amended): the scanner always skips dot-prefixed *files* —
every collected path ends in a name that is not dot-prefixed (and passes
the media filter) — and in non-recursive mode no subdirectory is entered,
so every collected path is a direct child of the album root; but in
recursive mode dot-prefixed directories are descended into, so files
beneath them can be collected (see the counterexample). -/
theorem scanner_skips_dot_files (deep : Bool) (entries : List FSEntry)
    (p : List String) (hp : p ∈ scanAlbum deep entries) :
    (∃ n, p.getLast? = some n ∧ startsWithDot n = false ∧ isMediaFile n = true)
    ∧ (deep = false → ∃ n, p = [n]) := by
  have hh := walkEntryList_mem_filtered deep [] entries p hp
  refine ⟨hh.1, fun hfalse => ?_⟩
  obtain ⟨n, hn⟩ := hh.2 hfalse
  exact ⟨n, by simpa using hn⟩

theorem scanner_skips_dot_files_witness :
    (["a.jpg"] : List String) ∈ scanAlbum false [FSEntry.file "a.jpg", FSEntry.file ".b.jpg"]
    ∧ ((∃ n, (["a.jpg"] : List String).getLast? = some n
          ∧ startsWithDot n = false ∧ isMediaFile n = true)
       ∧ (false = false → ∃ n, (["a.jpg"] : List String) = [n])) :=
  ⟨by decide,
   scanner_skips_dot_files false [FSEntry.file "a.jpg", FSEntry.file ".b.jpg"]
     ["a.jpg"] (by decide)⟩

/-! ## Claim C8: the smallest-first sort -/


theorem strLtChars_asymm : ∀ a b : List Char,
    strLtChars a b = true → strLtChars b a = false
  | [], [] => by simp [strLtChars]
  | [], _ :: _ => by intro _; rfl
  | _ :: _, [] => by simp [strLtChars]
  | x :: xs, y :: ys => by
    intro h
    simp only [strLtChars] at h ⊢
    by_cases hxy : x < y
    · rw [if_neg (lt_asymm hxy), if_pos hxy]
    · rw [if_neg hxy] at h
      by_cases hyx : y < x
      · rw [if_pos hyx] at h
        cases h
      · rw [if_neg hyx] at h
        rw [if_neg hyx, if_neg hxy]
        exact strLtChars_asymm xs ys h

theorem strLtChars_eq_of_both_false : ∀ a b : List Char,
    strLtChars a b = false → strLtChars b a = false → a = b
  | [], [] => by intro _ _; rfl
  | [], _ :: _ => by simp [strLtChars]
  | _ :: _, [] => by simp [strLtChars]
  | x :: xs, y :: ys => by
    intro h1 h2
    simp only [strLtChars] at h1 h2
    by_cases hxy : x < y
    · rw [if_pos hxy] at h1; cases h1
    · by_cases hyx : y < x
      · rw [if_pos hyx] at h2; cases h2
      · rw [if_neg hxy, if_neg hyx] at h1
        rw [if_neg hyx, if_neg hxy] at h2
        have hx : x = y := le_antisymm (not_lt.mp hyx) (not_lt.mp hxy)
        rw [hx, strLtChars_eq_of_both_false xs ys h1 h2]

theorem strLtChars_trans : ∀ a b c : List Char,
    strLtChars a b = true → strLtChars b c = true → strLtChars a c = true
  | [], [], _ => by simp [strLtChars]
  | _ :: _, [], _ => by simp [strLtChars]
  | _, _ :: _, [] => by intro _; simp [strLtChars]
  | [], y :: ys, z :: zs => by intro _ _; rfl
  | x :: xs, y :: ys, z :: zs => by
    intro h1 h2
    simp only [strLtChars] at h1 h2 ⊢
    by_cases hxy : x < y
    · by_cases hyz : y < z
      · rw [if_pos (lt_trans hxy hyz)]
      · by_cases hzy : z < y
        · rw [if_neg hyz, if_pos hzy] at h2; cases h2
        · have hy : y = z := le_antisymm (not_lt.mp hzy) (not_lt.mp hyz)
          rw [if_pos (lt_of_lt_of_eq hxy hy)]
    · by_cases hyx : y < x
      · rw [if_neg hxy, if_pos hyx] at h1; cases h1
      · have hx : x = y := le_antisymm (not_lt.mp hyx) (not_lt.mp hxy)
        rw [if_neg hxy, if_neg hyx] at h1
        by_cases hyz : y < z
        · rw [if_pos (lt_of_eq_of_lt hx hyz)]
        · by_cases hzy : z < y
          · rw [if_neg hyz, if_pos hzy] at h2; cases h2
          · have hy : y = z := le_antisymm (not_lt.mp hzy) (not_lt.mp hyz)
            rw [if_neg hyz, if_neg hzy] at h2
            have hxz : x = z := hx.trans hy
            have hnxz : ¬ x < z := by rw [hxz]; exact lt_irrefl z
            have hnzx : ¬ z < x := by rw [hxz]; exact lt_irrefl z
            rw [if_neg hnxz, if_neg hnzx]
            exact strLtChars_trans xs ys zs h1 h2

theorem string_data_inj : ∀ a b : String, a.data = b.data → a = b
  | ⟨d1⟩, ⟨d2⟩, h => congrArg String.mk (h : d1 = d2)

theorem smallestFirstLess_nn (stat : String → Option Nat) (a b : String)
    (ha : stat a = none) (hb : stat b = none) :
    smallestFirstLess stat a b = strLtChars a.data b.data := by
  unfold smallestFirstLess
  rw [ha, hb]

theorem smallestFirstLess_ns (stat : String → Option Nat) (a b : String)
    (y : Nat) (ha : stat a = none) (hb : stat b = some y) :
    smallestFirstLess stat a b = false := by
  unfold smallestFirstLess
  rw [ha, hb]

theorem smallestFirstLess_sn (stat : String → Option Nat) (a b : String)
    (x : Nat) (ha : stat a = some x) (hb : stat b = none) :
    smallestFirstLess stat a b = true := by
  unfold smallestFirstLess
  rw [ha, hb]

theorem smallestFirstLess_ss (stat : String → Option Nat) (a b : String)
    (x y : Nat) (ha : stat a = some x) (hb : stat b = some y) :
    smallestFirstLess stat a b
      = if x = y then strLtChars a.data b.data else decide (x < y) := by
  unfold smallestFirstLess
  rw [ha, hb]

theorem smallestFirstLess_asymm (stat : String → Option Nat) (a b : String)
    (h : smallestFirstLess stat a b = true) :
    smallestFirstLess stat b a = false := by
  cases hsa : stat a with
  | none =>
    cases hsb : stat b with
    | none =>
      rw [smallestFirstLess_nn stat a b hsa hsb] at h
      rw [smallestFirstLess_nn stat b a hsb hsa]
      exact strLtChars_asymm _ _ h
    | some y =>
      rw [smallestFirstLess_ns stat a b y hsa hsb] at h
      cases h
  | some x =>
    cases hsb : stat b with
    | none => exact smallestFirstLess_ns stat b a x hsb hsa
    | some y =>
      rw [smallestFirstLess_ss stat a b x y hsa hsb] at h
      rw [smallestFirstLess_ss stat b a y x hsb hsa]
      by_cases hxy : x = y
      · rw [if_pos hxy] at h
        rw [if_pos hxy.symm]
        exact strLtChars_asymm _ _ h
      · rw [if_neg hxy] at h
        rw [if_neg (fun hyx => hxy hyx.symm)]
        simp only [decide_eq_true_eq] at h
        simp only [decide_eq_false_iff_not]
        omega

theorem smallestFirstLess_eq_of_both_false (stat : String → Option Nat)
    (a b : String) (h1 : smallestFirstLess stat a b = false)
    (h2 : smallestFirstLess stat b a = false) : a = b := by
  cases hsa : stat a with
  | none =>
    cases hsb : stat b with
    | none =>
      rw [smallestFirstLess_nn stat a b hsa hsb] at h1
      rw [smallestFirstLess_nn stat b a hsb hsa] at h2
      exact string_data_inj _ _ (strLtChars_eq_of_both_false _ _ h1 h2)
    | some y =>
      rw [smallestFirstLess_sn stat b a y hsb hsa] at h2
      cases h2
  | some x =>
    cases hsb : stat b with
    | none =>
      rw [smallestFirstLess_sn stat a b x hsa hsb] at h1
      cases h1
    | some y =>
      rw [smallestFirstLess_ss stat a b x y hsa hsb] at h1
      rw [smallestFirstLess_ss stat b a y x hsb hsa] at h2
      by_cases hxy : x = y
      · rw [if_pos hxy] at h1
        rw [if_pos hxy.symm] at h2
        exact string_data_inj _ _ (strLtChars_eq_of_both_false _ _ h1 h2)
      · rw [if_neg hxy] at h1
        rw [if_neg (fun hyx => hxy hyx.symm)] at h2
        simp only [decide_eq_false_iff_not] at h1 h2
        omega

theorem smallestFirstLess_trans (stat : String → Option Nat) (a b c : String)
    (h1 : smallestFirstLess stat a b = true)
    (h2 : smallestFirstLess stat b c = true) :
    smallestFirstLess stat a c = true := by
  cases hsa : stat a with
  | none =>
    cases hsb : stat b with
    | none =>
      cases hsc : stat c with
      | none =>
        rw [smallestFirstLess_nn stat a b hsa hsb] at h1
        rw [smallestFirstLess_nn stat b c hsb hsc] at h2
        rw [smallestFirstLess_nn stat a c hsa hsc]
        exact strLtChars_trans _ _ _ h1 h2
      | some z =>
        rw [smallestFirstLess_ns stat b c z hsb hsc] at h2
        cases h2
    | some y =>
      rw [smallestFirstLess_ns stat a b y hsa hsb] at h1
      cases h1
  | some x =>
    cases hsc : stat c with
    | none => exact smallestFirstLess_sn stat a c x hsa hsc
    | some z =>
      cases hsb : stat b with
      | none =>
        rw [smallestFirstLess_ns stat b c z hsb hsc] at h2
        cases h2
      | some y =>
        rw [smallestFirstLess_ss stat a b x y hsa hsb] at h1
        rw [smallestFirstLess_ss stat b c y z hsb hsc] at h2
        rw [smallestFirstLess_ss stat a c x z hsa hsc]
        by_cases hxy : x = y
        · rw [if_pos hxy] at h1
          by_cases hyz : y = z
          · rw [if_pos hyz] at h2
            rw [if_pos (hxy.trans hyz)]
            exact strLtChars_trans _ _ _ h1 h2
          · rw [if_neg hyz] at h2
            simp only [decide_eq_true_eq] at h2
            rw [if_neg (by omega), decide_eq_true_eq]
            omega
        · rw [if_neg hxy] at h1
          simp only [decide_eq_true_eq] at h1
          by_cases hyz : y = z
          · rw [if_neg (by omega), decide_eq_true_eq]
            omega
          · rw [if_neg hyz] at h2
            simp only [decide_eq_true_eq] at h2
            rw [if_neg (by omega), decide_eq_true_eq]
            omega

theorem smallestFirstLess_neg_trans (stat : String → Option Nat) (a b c : String)
    (h1 : smallestFirstLess stat b a = false)
    (h2 : smallestFirstLess stat c b = false) :
    smallestFirstLess stat c a = false := by
  cases hab : smallestFirstLess stat a b
  · have hEq : a = b := smallestFirstLess_eq_of_both_false stat a b hab h1
    rw [hEq]
    exact h2
  · cases hbc : smallestFirstLess stat b c
    · have hEq : b = c := smallestFirstLess_eq_of_both_false stat b c hbc h2
      rw [← hEq]
      exact h1
    · exact smallestFirstLess_asymm stat a c
        (smallestFirstLess_trans stat a b c hab hbc)

/-- Claim C8: with the smallest-first policy and all stats succeeding,
the dispatch list is the input file list reordered ascending by size with
the path bytes as tie-break; for concrete files of sizes 10, 1000 and 500
bytes the dispatch order is 10, 500, 1000. -/
theorem smallest_first_sort_order (stat : String → Option Nat)
    (sizes : String → Nat) (files : List String)
    (hstat : ∀ f ∈ files, stat f = some (sizes f)) :
    (smallestFirstSort stat files).Perm files
    ∧ List.Sorted
        (fun a b => sizes a < sizes b
          ∨ (sizes a = sizes b ∧ strLtChars b.data a.data = false))
        (smallestFirstSort stat files)
    ∧ smallestFirstSort
        (fun p => if p = "trip/video.mp4" then some 1000
          else if p = "trip/pic1.jpg" then some 500
          else if p = "trip/pic2.jpg" then some 10 else none)
        ["trip/video.mp4", "trip/pic1.jpg", "trip/pic2.jpg"]
      = ["trip/pic2.jpg", "trip/pic1.jpg", "trip/video.mp4"] := by
  haveI htot : IsTotal String (fun a b => smallestFirstLess stat b a = false) := by
    constructor
    intro a b
    cases h : smallestFirstLess stat b a
    · exact Or.inl rfl
    · exact Or.inr (smallestFirstLess_asymm stat b a h)
  haveI htrans : IsTrans String (fun a b => smallestFirstLess stat b a = false) := by
    constructor
    intro a b c h1 h2
    exact smallestFirstLess_neg_trans stat a b c h1 h2
  refine ⟨List.perm_insertionSort _ files, ?_, by decide⟩
  have hsorted := List.sorted_insertionSort
    (fun a b => smallestFirstLess stat b a = false) files
  have hmem : ∀ x ∈ smallestFirstSort stat files, x ∈ files := fun x hx =>
    (List.perm_insertionSort _ files).mem_iff.mp hx
  refine List.Pairwise.imp_of_mem ?_ hsorted
  intro a b ha hb hr
  have hsa := hstat a (hmem a ha)
  have hsb := hstat b (hmem b hb)
  rw [smallestFirstLess_ss stat b a (sizes b) (sizes a) hsb hsa] at hr
  by_cases heq : sizes b = sizes a
  · rw [if_pos heq] at hr
    exact Or.inr ⟨heq.symm, hr⟩
  · rw [if_neg heq] at hr
    simp only [decide_eq_false_iff_not] at hr
    exact Or.inl (by omega)

theorem smallest_first_sort_order_witness :
    ((∀ f ∈ (["trip/video.mp4", "trip/pic1.jpg", "trip/pic2.jpg"] : List String),
        (fun p => if p = "trip/video.mp4" then some 1000
          else if p = "trip/pic1.jpg" then some 500
          else if p = "trip/pic2.jpg" then some 10 else none) f
          = some ((fun p => if p = "trip/video.mp4" then 1000
              else if p = "trip/pic1.jpg" then 500 else 10) f))
      ∧ (smallestFirstSort
          (fun p => if p = "trip/video.mp4" then some 1000
            else if p = "trip/pic1.jpg" then some 500
            else if p = "trip/pic2.jpg" then some 10 else none)
          ["trip/video.mp4", "trip/pic1.jpg", "trip/pic2.jpg"]).Perm
          ["trip/video.mp4", "trip/pic1.jpg", "trip/pic2.jpg"]) :=
  ⟨by decide,
   (smallest_first_sort_order
      (fun p => if p = "trip/video.mp4" then some 1000
        else if p = "trip/pic1.jpg" then some 500
        else if p = "trip/pic2.jpg" then some 10 else none)
      (fun p => if p = "trip/video.mp4" then 1000
        else if p = "trip/pic1.jpg" then 500 else 10)
      ["trip/video.mp4", "trip/pic1.jpg", "trip/pic2.jpg"]
      (by decide)).1⟩

/-! ## Claim C9: album-creation failure is contained -/

/-- Claim C9: once the setup phase has succeeded, `Run` ends in `nil`
(process exit 0) no matter what happens per album; a folder whose album
creation fails gets the `createFailed` outcome with the album index
unchanged — no per-file processing, no results, no link requests — and
the folder loop continues with the remaining entries. -/
theorem create_failure_skips_album (opt : Options) (env : RunEnv)
    (hkey : opt.apiKey ≠ "") (hroot : opt.root ≠ "")
    (albums0 : List (String × String)) (entries : List (String × Bool))
    (hlist : env.listAlbums = .ok albums0)
    (hdir : env.readRootDir = .ok entries) :
    runModel opt env = .ok (runFolders opt env albums0 entries)
    ∧ exitCode opt env = 0
    ∧ (∀ albums name e, albums.lookup name = none →
        env.createAlbum name = .error e →
        processFolder opt env albums name = (.createFailed e, albums))
    ∧ (∀ albums name e rest, name ≠ opt.ignoreDir →
        albums.lookup name = none → env.createAlbum name = .error e →
        runFolders opt env albums ((name, true) :: rest)
          = (name, .createFailed e) :: runFolders opt env albums rest) := by
  have hrun : runModel opt env = .ok (runFolders opt env albums0 entries) := by
    unfold runModel
    rw [if_neg hkey, if_neg hroot, hlist, hdir]
  have hproc : ∀ albums name e, albums.lookup name = none →
      env.createAlbum name = .error e →
      processFolder opt env albums name = (.createFailed e, albums) := by
    intro albums name e hlook hcreate
    unfold processFolder
    rw [hlook, hcreate]
  refine ⟨hrun, ?_, hproc, ?_⟩
  · unfold exitCode
    rw [hrun]
  · intro albums name e rest hig hlook hcreate
    conv_lhs => rw [runFolders]
    rw [if_neg (by simp), if_neg hig, hproc albums name e hlook hcreate]

theorem create_failure_skips_album_witness :
    exitCode
        ⟨"key", "/photos", true, true, 200, false, "ignore"⟩
        ⟨.ok [], .ok [("Broken", true), ("Good", true)],
         fun name => if name = "Broken" then .error (.message "boom") else .ok "id-1",
         fun _ => none, fun _ => .ok ["Good/a.jpg"], fun _ => some 1,
         ⟨fun _ => .ok 1, fun _ => .ok 1, fun _ => .ok "ff",
          fun _ _ => .ok ⟨"asset-9", "created"⟩, fun _ => none⟩⟩ = 0
    ∧ processFolder
        ⟨"key", "/photos", true, true, 200, false, "ignore"⟩
        ⟨.ok [], .ok [("Broken", true), ("Good", true)],
         fun name => if name = "Broken" then .error (.message "boom") else .ok "id-1",
         fun _ => none, fun _ => .ok ["Good/a.jpg"], fun _ => some 1,
         ⟨fun _ => .ok 1, fun _ => .ok 1, fun _ => .ok "ff",
          fun _ _ => .ok ⟨"asset-9", "created"⟩, fun _ => none⟩⟩
        [] "Broken"
      = (.createFailed (.message "boom"), []) :=
  ⟨((create_failure_skips_album
      ⟨"key", "/photos", true, true, 200, false, "ignore"⟩
      ⟨.ok [], .ok [("Broken", true), ("Good", true)],
       fun name => if name = "Broken" then .error (.message "boom") else .ok "id-1",
       fun _ => none, fun _ => .ok ["Good/a.jpg"], fun _ => some 1,
       ⟨fun _ => .ok 1, fun _ => .ok 1, fun _ => .ok "ff",
        fun _ _ => .ok ⟨"asset-9", "created"⟩, fun _ => none⟩⟩
      (by decide) (by decide)
      [] [("Broken", true), ("Good", true)] rfl rfl).2.1),
   ((create_failure_skips_album
      ⟨"key", "/photos", true, true, 200, false, "ignore"⟩
      ⟨.ok [], .ok [("Broken", true), ("Good", true)],
       fun name => if name = "Broken" then .error (.message "boom") else .ok "id-1",
       fun _ => none, fun _ => .ok ["Good/a.jpg"], fun _ => some 1,
       ⟨fun _ => .ok 1, fun _ => .ok 1, fun _ => .ok "ff",
        fun _ _ => .ok ⟨"asset-9", "created"⟩, fun _ => none⟩⟩
      (by decide) (by decide)
      [] [("Broken", true), ("Good", true)] rfl rfl).2.2.1
      [] "Broken" (.message "boom") rfl rfl)⟩

end ImmichUploader
